import Mathlib

/-!
Verification of the live-node directory core of scylladb/alternator-load-balancing,
as implemented in the Go binding (`src/unnamed/part_011`, package `common`, and its
near-identical copies `src/go/common/live_nodes.go` and
`src/go/alternator_live_nodes/live_nodes.go`).

The embedding is shallow: the `AlternatorLiveNodes` struct becomes `ALNState`,
HTTP fetches become an explicit `FetchResult` input, and the helper functions keep
their Go names. The uint64 round-robin cursor is a `Nat` reduced modulo `2 ^ 64`
exactly where Go's `atomic.Uint64.Add` wraps.
-/

namespace AlternatorLB

/-- Width of the round-robin cursor: Go `atomic.Uint64` arithmetic wraps modulo `2 ^ 64`. -/
def U64 : Nat := 2 ^ 64

/-- Shallow embedding of Go `net/url.URL` restricted to the fields the load balancer
reads or writes: scheme, host, port, path and raw query. -/
structure URLRec where
  scheme : String
  host : String
  port : Nat
  path : String
  rawQuery : String
deriving Repr, DecidableEq, Inhabited

/-- Embedding of `ALNConfig` (part_011 lines 34 to 45) restricted to the fields that
carry load-balancing logic; HTTP client, timing and TLS fields are plumbing. -/
structure ALNConfig where
  scheme : String
  port : Nat
  rack : String
  datacenter : String
deriving Repr, DecidableEq, Inhabited

/-- Go constant `defaultScheme = "http"`. -/
def defaultScheme : String := "http"

/-- Go constant `defaultPort = 8080`. -/
def defaultPort : Nat := 8080

/-- Embedding of `NewALNConfig` (part_011 lines 47 to 57). -/
def NewALNConfig : ALNConfig :=
  { scheme := defaultScheme, port := defaultPort, rack := "", datacenter := "" }

/-- Embedding of `NewConfig` from `go/alternator_live_nodes/live_nodes.go`
(lines 38 to 47); its field values coincide with `NewALNConfig`. -/
def NewConfig : ALNConfig := NewALNConfig

/-- Embedding of `WithALNScheme` (part_011 lines 61 to 65). -/
def WithALNScheme (scheme : String) (config : ALNConfig) : ALNConfig :=
  { config with scheme := scheme }

/-- Embedding of `WithALNPort` (part_011 lines 67 to 71). -/
def WithALNPort (port : Nat) (config : ALNConfig) : ALNConfig :=
  { config with port := port }

/-- Embedding of `WithALNRack` (part_011 lines 73 to 77): stores the rack. -/
def WithALNRack (rack : String) (config : ALNConfig) : ALNConfig :=
  { config with rack := rack }

/-- Embedding of `WithALNDatacenter` (part_011 lines 79 to 83). -/
def WithALNDatacenter (datacenter : String) (config : ALNConfig) : ALNConfig :=
  { config with datacenter := datacenter }

/-- Embedding of `WithRack` from `go/alternator_live_nodes/live_nodes.go` lines 63
to 65. The Go body is `return func(config *Config) \x7b\x7d`: the returned closure is
empty, so the rack argument is discarded and the config is returned unchanged. -/
def WithRack (rack : String) (config : ALNConfig) : ALNConfig :=
  config

/-- Embedding of `WithDatacenter` from `go/alternator_live_nodes/live_nodes.go`
(lines 67 to 71): stores the datacenter. -/
def WithDatacenter (datacenter : String) (config : ALNConfig) : ALNConfig :=
  { config with datacenter := datacenter }

/-- Modelled behaviour of Go `url.Parse` on the characters of the host position in
`scheme://host:port`: letters, digits, dot, dash and underscore are accepted; other
characters (a space, a slash, a control character) make `url.Parse` fail. -/
def hostCharValid (c : Char) : Bool :=
  c.isAlpha || c.isDigit || c = '.' || c = '-' || c = '_'

/-- Modelled acceptance of a host string by Go `url.Parse`: every character of the
host must be valid. -/
def hostValid (host : String) : Bool :=
  host.data.all hostCharValid

/-- Modelled `url.Parse(fmt.Sprintf("%s://%s:%d", scheme, node, port))` as used at
part_011 lines 145 and 260: returns the structured URL on success, `none` when the
host is rejected. -/
def mkNodeURL (scheme host : String) (port : Nat) : Option URLRec :=
  if hostValid host then
    some { scheme := scheme, host := host, port := port, path := "", rawQuery := "" }
  else
    none

/-- Directory state: embedding of the `AlternatorLiveNodes` struct (part_011 lines
21 to 31) restricted to the fields carrying load-balancing logic. The cursor
`nextLiveNodeIdx` is a `Nat` kept below `2 ^ 64`. -/
structure ALNState where
  liveNodes : List URLRec
  initialNodes : List URLRec
  nextLiveNodeIdx : Nat
  cfg : ALNConfig
deriving Repr, DecidableEq

/-- Seed-list conversion loop of `NewAlternatorLiveNodes` (part_011 lines 143 to
150): every seed hostname must parse, otherwise construction fails. -/
def buildSeedURLs (cfg : ALNConfig) : List String → Option (List URLRec)
  | [] => some []
  | node :: rest =>
    match mkNodeURL cfg.scheme node cfg.port with
    | none => none
    | some u =>
      match buildSeedURLs cfg rest with
      | none => none
      | some us => some (u :: us)

/-- Embedding of `NewAlternatorLiveNodes` (part_011 lines 127 to 163): rejects an
empty seed list, converts every seed to a URL (failing construction on a bad seed),
and stores the seed URLs as both `initialNodes` and the live list, cursor at 0. -/
def NewAlternatorLiveNodes (initialNodes : List String) (cfg : ALNConfig) :
    Option ALNState :=
  if initialNodes.length = 0 then none
  else
    match buildSeedURLs cfg initialNodes with
    | none => none
    | some nodes =>
      some { liveNodes := nodes, initialNodes := nodes, nextLiveNodeIdx := 0, cfg := cfg }

/-- List actually indexed by `nextNode` (part_011 lines 215 to 218): the live list,
falling back to the initial nodes when the live list is empty. -/
def selNodes (s : ALNState) : List URLRec :=
  if s.liveNodes.isEmpty then s.initialNodes else s.liveNodes

/-- Embedding of `nextNode` (part_011 lines 214 to 220): increment the uint64 cursor
(wrapping modulo `2 ^ 64`) and return the node at the new cursor value modulo the
list length, together with the updated state. `List.getD` models Go's
`nodes[i % uint64(len(nodes))]`; the divisor is shown nonzero in the invariant
theorems below. -/
def nextNode (s : ALNState) : URLRec × ALNState :=
  let nodes := selNodes s
  let idx := (s.nextLiveNodeIdx + 1) % U64
  (nodes.getD (idx % nodes.length) default, { s with nextLiveNodeIdx := idx })

/-- Trace of `n` sequential `nextNode` calls: the returned nodes in order, and the
final state. -/
def nextNodes (s : ALNState) : Nat → List URLRec × ALNState
  | 0 => ([], s)
  | n + 1 =>
    let p := nextNode s
    let q := nextNodes p.2 n
    (p.1 :: q.1, q.2)

/-- Embedding of `nextAsURLWithPath` (part_011 lines 222 to 230): take the next
node, set the path, and set the raw query only when nonempty. -/
def nextAsURLWithPath (s : ALNState) (path query : String) : URLRec × ALNState :=
  let p := nextNode s
  let newURL := { p.1 with path := path }
  (if query ≠ "" then { newURL with rawQuery := query } else newURL, p.2)

/-- Query-string construction of `nextAsLocalNodesURL` (part_011 lines 270 to 279):
`rack=<rack>` when a rack is configured, `dc=<datacenter>` when a datacenter is
configured, joined with `&` when both are present. -/
def localNodesQuery (cfg : ALNConfig) : String :=
  let query := ""
  let query := if cfg.rack ≠ "" then query ++ "rack=" ++ cfg.rack else query
  let query :=
    if cfg.datacenter ≠ "" then
      (if query ≠ "" then query ++ "&" else query) ++ "dc=" ++ cfg.datacenter
    else query
  query

/-- Embedding of `nextAsLocalNodesURL` (part_011 lines 269 to 281). -/
def nextAsLocalNodesURL (s : ALNState) : URLRec × ALNState :=
  nextAsURLWithPath s "/localnodes" (localNodesQuery s.cfg)

/-- Outcome of one HTTP GET as seen by `getNodes`: a network error, or a response
with a status code and a body whose JSON decoding as a string array either fails
(`none`) or yields the hostname list. -/
inductive FetchResult where
  | netError : FetchResult
  | response (status : Nat) (body : Option (List String)) : FetchResult
deriving Repr, DecidableEq

/-- URL-building loop of `getNodes` (part_011 lines 258 to 265): each hostname is
combined with the configured scheme and port; an entry whose parse fails is skipped
(`continue`), the rest are appended in order. -/
def buildURIs (cfg : ALNConfig) : List String → List URLRec
  | [] => []
  | node :: rest =>
    match mkNodeURL cfg.scheme node cfg.port with
    | none => buildURIs cfg rest
    | some u => u :: buildURIs cfg rest

/-- Embedding of `getNodes` (part_011 lines 239 to 267): network error and non-200
status and JSON decode failure are errors; otherwise the hostname list is mapped to
URLs with per-entry failures skipped. -/
def getNodes (cfg : ALNConfig) : FetchResult → Except String (List URLRec)
  | .netError => .error "network error"
  | .response status body =>
    if status ≠ 200 then .error "non-200 response"
    else
      match body with
      | none => .error "json unmarshal error"
      | some nodes => .ok (buildURIs cfg nodes)

/-- Embedding of `updateLiveNodes` (part_011 lines 232 to 237): build the discovery
URL (which advances the cursor through `nextAsLocalNodesURL`), fetch, and install
the result only when the fetch succeeded with a nonempty list. The cursor is not
otherwise touched. -/
def updateLiveNodes (s : ALNState) (fr : FetchResult) : ALNState :=
  let p := nextAsLocalNodesURL s
  match getNodes p.2.cfg fr with
  | .error _ => p.2
  | .ok newNodes =>
    if 0 < newNodes.length then { p.2 with liveNodes := newNodes } else p.2

/-- Embedding of `CheckIfRackAndDatacenterSetCorrectly` (part_011 lines 283 to
295): immediate success without a fetch when no filter is configured; otherwise a
fetch with the configured filter, failing on fetch error or on an empty result. -/
def CheckIfRackAndDatacenterSetCorrectly (s : ALNState) (fr : FetchResult) :
    Except String Unit × ALNState :=
  if s.cfg.rack = "" ∧ s.cfg.datacenter = "" then (.ok (), s)
  else
    let p := nextAsLocalNodesURL s
    match getNodes p.2.cfg fr with
    | .error e => (.error ("failed to read list of nodes: " ++ e), p.2)
    | .ok newNodes =>
      if newNodes.length = 0 then
        (.error "node returned empty list, datacenter or rack might be incorrect", p.2)
      else (.ok (), p.2)

/-- The two URLs built by `CheckIfRackDatacenterFeatureIsSupported` (part_011 lines
298 to 299): `baseURI` with empty query first, then `fakeRackURI` with query
`rack=fakeRack`; both ignore the configured filter. -/
def probeURIs (s : ALNState) : (URLRec × URLRec) × ALNState :=
  let p := nextAsURLWithPath s "/localnodes" ""
  let q := nextAsURLWithPath p.2 "/localnodes" "rack=fakeRack"
  ((p.1, q.1), q.2)

/-- Embedding of `CheckIfRackDatacenterFeatureIsSupported` (part_011 lines 297 to
314): fetch with the fake-rack URL first, then with the base URL; propagate fetch
errors; an empty base result is an error; otherwise report whether the two sizes
differ. -/
def CheckIfRackDatacenterFeatureIsSupported (s : ALNState) (frFake frBase : FetchResult) :
    Except String Bool × ALNState :=
  let p := probeURIs s
  match getNodes p.2.cfg frFake with
  | .error e => (.error e, p.2)
  | .ok hostsWithFakeRack =>
    match getNodes p.2.cfg frBase with
    | .error e => (.error e, p.2)
    | .ok hostsWithoutRack =>
      if hostsWithoutRack.length = 0 then (.error "host returned empty list", p.2)
      else (.ok (hostsWithFakeRack.length != hostsWithoutRack.length), p.2)

/-- One externally triggerable operation on a directory. `start` and `stop` only
start or cancel the background task (part_011 lines 188 to 196); neither touches
the node lists or the cursor, so on the embedded state they are the identity. -/
inductive Op where
  | next : Op
  | refresh (fr : FetchResult) : Op
  | probeConfigured (fr : FetchResult) : Op
  | probeSupported (frFake frBase : FetchResult) : Op
  | start : Op
  | stop : Op

/-- State transition of one operation. -/
def applyOp (s : ALNState) : Op → ALNState
  | .next => (nextNode s).2
  | .refresh fr => updateLiveNodes s fr
  | .probeConfigured fr => (CheckIfRackAndDatacenterSetCorrectly s fr).2
  | .probeSupported frFake frBase => (CheckIfRackDatacenterFeatureIsSupported s frFake frBase).2
  | .start => s
  | .stop => s

/-- Run a sequence of operations from a state. -/
def run (s : ALNState) (ops : List Op) : ALNState :=
  ops.foldl applyOp s

/-- Node URL for a host under the default scheme `http` and port 8080; used for
concrete instances. -/
def nodeEx (host : String) : URLRec :=
  { scheme := "http", host := host, port := 8080, path := "", rawQuery := "" }

/-- Concrete directory state as built from seeds `a`, `b`, `c` with the default
config. -/
def s0Ex : ALNState :=
  { liveNodes := [nodeEx "a", nodeEx "b", nodeEx "c"],
    initialNodes := [nodeEx "a", nodeEx "b", nodeEx "c"],
    nextLiveNodeIdx := 0,
    cfg := NewALNConfig }

/-- Concrete directory state with rack `r1` and datacenter `dc1` configured. -/
def sProbeEx : ALNState :=
  { s0Ex with cfg := { scheme := "http", port := 8080, rack := "r1", datacenter := "dc1" } }

/-- Concrete directory state with datacenter `wrongDC` configured. -/
def sWrongDC : ALNState :=
  { s0Ex with cfg := { scheme := "http", port := 8080, rack := "", datacenter := "wrongDC" } }

/-- Successful fetch outcome carrying three hostnames. -/
def fr3 : FetchResult := FetchResult.response 200 (some ["a", "b", "c"])

/-- The directory invariant: the live list and the initial list are never empty. -/
def Inv (s : ALNState) : Prop :=
  s.liveNodes ≠ [] ∧ s.initialNodes ≠ []

/-- Directory state reached from `s0Ex` after `2 ^ 64 - 2` cursor increments: the
uint64 cursor sits two steps before its wrap. -/
def sWrapEx : ALNState :=
  { s0Ex with nextLiveNodeIdx := U64 - 2 }

/-- All stored node URLs carry an empty query string (true of every URL built by
`mkNodeURL`, hence of every reachable directory state). -/
def NoQueryNodes (s : ALNState) : Prop :=
  (∀ u ∈ s.liveNodes, u.rawQuery = "") ∧ (∀ u ∈ s.initialNodes, u.rawQuery = "")

theorem nextNode_state (s : ALNState) :
    (nextNode s).2 = { s with nextLiveNodeIdx := (s.nextLiveNodeIdx + 1) % U64 } := rfl

theorem nextAsURLWithPath_state (s : ALNState) (path query : String) :
    (nextAsURLWithPath s path query).2 = (nextNode s).2 := rfl

theorem selNodes_of_ne (s : ALNState) (h : s.liveNodes ≠ []) :
    selNodes s = s.liveNodes := by
  simp [selNodes, h]

theorem nextNode_fst (s : ALNState) (h : s.liveNodes ≠ []) :
    (nextNode s).1 =
      s.liveNodes.getD ((s.nextLiveNodeIdx + 1) % U64 % s.liveNodes.length) default := by
  simp [nextNode, selNodes_of_ne s h]

theorem nextNode_mem (s : ALNState) (h : s.liveNodes ≠ []) :
    (nextNode s).1 ∈ s.liveNodes := by
  rw [nextNode_fst s h]
  have hpos : 0 < s.liveNodes.length := List.length_pos.mpr h
  have hlt : (s.nextLiveNodeIdx + 1) % U64 % s.liveNodes.length < s.liveNodes.length :=
    Nat.mod_lt _ hpos
  rw [List.getD_eq_getElem _ _ hlt]
  exact List.getElem_mem _

theorem buildSeedURLs_length (cfg : ALNConfig) (seeds : List String) (ns : List URLRec)
    (h : buildSeedURLs cfg seeds = some ns) : ns.length = seeds.length := by
  induction seeds generalizing ns with
  | nil => simp [buildSeedURLs] at h; simp [← h]
  | cons a t ih =>
    simp only [buildSeedURLs] at h
    cases hu : mkNodeURL cfg.scheme a cfg.port with
    | none => rw [hu] at h; cases h
    | some u =>
      rw [hu] at h
      cases ht : buildSeedURLs cfg t with
      | none => rw [ht] at h; cases h
      | some us =>
        rw [ht] at h
        cases h
        simp [ih us ht]

theorem NewAlternatorLiveNodes_inv (seeds : List String) (cfg : ALNConfig) (s0 : ALNState)
    (h : NewAlternatorLiveNodes seeds cfg = some s0) :
    Inv s0 ∧ s0.nextLiveNodeIdx = 0 ∧ s0.liveNodes.length = seeds.length ∧
      s0.initialNodes = s0.liveNodes ∧ s0.cfg = cfg := by
  unfold NewAlternatorLiveNodes at h
  split at h
  · cases h
  · rename_i hlen
    cases hb : buildSeedURLs cfg seeds with
    | none => rw [hb] at h; cases h
    | some nodes =>
      rw [hb] at h
      cases h
      have hlen2 := buildSeedURLs_length cfg seeds nodes hb
      have hne : nodes ≠ [] := by
        intro hnil
        apply hlen
        rw [hnil] at hlen2
        simpa using hlen2.symm
      exact ⟨⟨hne, hne⟩, rfl, hlen2, rfl, rfl⟩

theorem updateLiveNodes_eq (s : ALNState) (fr : FetchResult) :
    updateLiveNodes s fr =
      match getNodes s.cfg fr with
      | .error _ => (nextNode s).2
      | .ok newNodes =>
        if 0 < newNodes.length then { (nextNode s).2 with liveNodes := newNodes }
        else (nextNode s).2 := rfl

theorem updateLiveNodes_initialNodes (s : ALNState) (fr : FetchResult) :
    (updateLiveNodes s fr).initialNodes = s.initialNodes := by
  rw [updateLiveNodes_eq]
  cases getNodes s.cfg fr with
  | error e => rfl
  | ok l => by_cases h : 0 < l.length <;> simp [h, nextNode_state]

theorem updateLiveNodes_cfg (s : ALNState) (fr : FetchResult) :
    (updateLiveNodes s fr).cfg = s.cfg := by
  rw [updateLiveNodes_eq]
  cases getNodes s.cfg fr with
  | error e => rfl
  | ok l => by_cases h : 0 < l.length <;> simp [h, nextNode_state]

theorem updateLiveNodes_liveNodes_ne (s : ALNState) (fr : FetchResult)
    (h : s.liveNodes ≠ []) : (updateLiveNodes s fr).liveNodes ≠ [] := by
  rw [updateLiveNodes_eq]
  cases getNodes s.cfg fr with
  | error e => simpa [nextNode_state] using h
  | ok l =>
    by_cases hl : 0 < l.length
    · simpa [hl, nextNode_state] using List.length_pos.mp hl
    · simpa [hl, nextNode_state] using h

theorem nextNode_liveNodes (s : ALNState) : (nextNode s).2.liveNodes = s.liveNodes := rfl

theorem nextNode_initialNodes (s : ALNState) :
    (nextNode s).2.initialNodes = s.initialNodes := rfl

theorem nextNode_cfg (s : ALNState) : (nextNode s).2.cfg = s.cfg := rfl

theorem nextNode_idx (s : ALNState) :
    (nextNode s).2.nextLiveNodeIdx = (s.nextLiveNodeIdx + 1) % U64 := rfl

theorem checkConfigured_eq (s : ALNState) (fr : FetchResult) :
    CheckIfRackAndDatacenterSetCorrectly s fr =
      if s.cfg.rack = "" ∧ s.cfg.datacenter = "" then (.ok (), s)
      else
        match getNodes s.cfg fr with
        | .error e => (.error ("failed to read list of nodes: " ++ e), (nextNode s).2)
        | .ok newNodes =>
          if newNodes.length = 0 then
            (.error "node returned empty list, datacenter or rack might be incorrect",
              (nextNode s).2)
          else (.ok (), (nextNode s).2) := rfl

theorem probeSupported_eq (s : ALNState) (frFake frBase : FetchResult) :
    CheckIfRackDatacenterFeatureIsSupported s frFake frBase =
      (match getNodes s.cfg frFake with
       | .error e => (.error e, (nextNode (nextNode s).2).2)
       | .ok hostsWithFakeRack =>
         match getNodes s.cfg frBase with
         | .error e => (.error e, (nextNode (nextNode s).2).2)
         | .ok hostsWithoutRack =>
           if hostsWithoutRack.length = 0 then
             (.error "host returned empty list", (nextNode (nextNode s).2).2)
           else
             (.ok (hostsWithFakeRack.length != hostsWithoutRack.length),
               (nextNode (nextNode s).2).2)) := rfl

theorem checkConfigured_state (s : ALNState) (fr : FetchResult) :
    (CheckIfRackAndDatacenterSetCorrectly s fr).2 = s ∨
    (CheckIfRackAndDatacenterSetCorrectly s fr).2 = (nextNode s).2 := by
  rw [checkConfigured_eq]
  split
  · left; rfl
  · cases getNodes s.cfg fr with
    | error e => right; rfl
    | ok l =>
      by_cases hl : l.length = 0
      · right; simp [hl]
      · right; simp [hl]

theorem probeSupported_state (s : ALNState) (frFake frBase : FetchResult) :
    (CheckIfRackDatacenterFeatureIsSupported s frFake frBase).2 =
      (nextNode (nextNode s).2).2 := by
  rw [probeSupported_eq]
  cases getNodes s.cfg frFake with
  | error e => rfl
  | ok lF =>
    cases getNodes s.cfg frBase with
    | error e => rfl
    | ok lB =>
      by_cases hl : lB.length = 0
      · simp [hl]
      · simp [hl]

theorem applyOp_inv (s : ALNState) (op : Op) (h : Inv s) : Inv (applyOp s op) := by
  obtain ⟨h1, h2⟩ := h
  cases op with
  | next =>
    exact ⟨by rw [applyOp, nextNode_liveNodes]; exact h1,
      by rw [applyOp, nextNode_initialNodes]; exact h2⟩
  | refresh fr =>
    exact ⟨updateLiveNodes_liveNodes_ne s fr h1,
      by rw [applyOp, updateLiveNodes_initialNodes]; exact h2⟩
  | probeConfigured fr =>
    rcases checkConfigured_state s fr with hs | hs <;> rw [applyOp, hs]
    · exact ⟨h1, h2⟩
    · exact ⟨by rw [nextNode_liveNodes]; exact h1, by rw [nextNode_initialNodes]; exact h2⟩
  | probeSupported frFake frBase =>
    rw [applyOp, probeSupported_state]
    exact ⟨by rw [nextNode_liveNodes, nextNode_liveNodes]; exact h1,
      by rw [nextNode_initialNodes, nextNode_initialNodes]; exact h2⟩
  | start => exact ⟨h1, h2⟩
  | stop => exact ⟨h1, h2⟩

theorem run_inv (s : ALNState) (ops : List Op) (h : Inv s) : Inv (run s ops) := by
  induction ops generalizing s with
  | nil => exact h
  | cons op rest ih => exact ih (applyOp s op) (applyOp_inv s op h)

theorem run_replicate_next (s : ALNState) (n : Nat) :
    run s (List.replicate n Op.next) = (nextNodes s n).2 := by
  induction n generalizing s with
  | zero => rfl
  | succ n ih =>
    rw [List.replicate_succ]
    show run (nextNode s).2 (List.replicate n Op.next) = _
    exact ih (nextNode s).2

theorem nextNodes_snd (s : ALNState) (n : Nat) :
    (nextNodes s n).2.liveNodes = s.liveNodes ∧
    (nextNodes s n).2.initialNodes = s.initialNodes ∧
    (nextNodes s n).2.cfg = s.cfg := by
  induction n generalizing s with
  | zero => exact ⟨rfl, rfl, rfl⟩
  | succ n ih => exact ih (nextNode s).2

theorem nextNodes_snd_idx (s : ALNState) (n : Nat) (hc : s.nextLiveNodeIdx + n < U64) :
    (nextNodes s n).2.nextLiveNodeIdx = s.nextLiveNodeIdx + n := by
  induction n generalizing s with
  | zero => rfl
  | succ n ih =>
    have hmod : (s.nextLiveNodeIdx + 1) % U64 = s.nextLiveNodeIdx + 1 :=
      Nat.mod_eq_of_lt (by omega)
    have hc1 : (nextNode s).2.nextLiveNodeIdx + n < U64 := by
      rw [nextNode_idx, hmod]; omega
    show (nextNodes (nextNode s).2 n).2.nextLiveNodeIdx = _
    rw [ih (nextNode s).2 hc1, nextNode_idx, hmod]
    omega

theorem nextNodes_fst (s : ALNState) (n : Nat) (hL : s.liveNodes ≠ [])
    (hc : s.nextLiveNodeIdx + n < U64) :
    (nextNodes s n).1 =
      (List.range n).map
        (fun i =>
          s.liveNodes.getD ((s.nextLiveNodeIdx + i + 1) % s.liveNodes.length) default) := by
  induction n generalizing s with
  | zero => simp [nextNodes]
  | succ n ih =>
    have hmod : (s.nextLiveNodeIdx + 1) % U64 = s.nextLiveNodeIdx + 1 :=
      Nat.mod_eq_of_lt (by omega)
    have hL1 : (nextNode s).2.liveNodes ≠ [] := by rw [nextNode_liveNodes]; exact hL
    have hc1 : (nextNode s).2.nextLiveNodeIdx + n < U64 := by
      rw [nextNode_idx, hmod]; omega
    have ih1 := ih (nextNode s).2 hL1 hc1
    rw [nextNode_liveNodes, nextNode_idx, hmod] at ih1
    show (nextNode s).1 :: (nextNodes (nextNode s).2 n).1 = _
    rw [ih1, nextNode_fst s hL, hmod]
    rw [List.range_succ_eq_map, List.map_cons, List.map_map]
    congr 1
    apply List.map_congr_left
    intro i hi
    show s.liveNodes.getD ((s.nextLiveNodeIdx + 1 + i + 1) % s.liveNodes.length) default =
      s.liveNodes.getD ((s.nextLiveNodeIdx + (i + 1) + 1) % s.liveNodes.length) default
    have harith : s.nextLiveNodeIdx + 1 + i + 1 = s.nextLiveNodeIdx + (i + 1) + 1 := by
      omega
    rw [harith]

theorem ALNState_eq_of_fields (s t : ALNState)
    (h1 : s.liveNodes = t.liveNodes) (h2 : s.initialNodes = t.initialNodes)
    (h3 : s.nextLiveNodeIdx = t.nextLiveNodeIdx) (h4 : s.cfg = t.cfg) : s = t := by
  cases s; cases t; simp_all

theorem buildURIs_eq_filterMap (cfg : ALNConfig) (hosts : List String) :
    buildURIs cfg hosts =
      hosts.filterMap (fun node => mkNodeURL cfg.scheme node cfg.port) := by
  induction hosts with
  | nil => rfl
  | cons a t ih =>
    cases h : mkNodeURL cfg.scheme a cfg.port <;>
      simp [buildURIs, h, List.filterMap_cons, ih]

theorem buildURIs_length (cfg : ALNConfig) (hosts : List String) :
    (buildURIs cfg hosts).length =
      (hosts.filter (fun node => (mkNodeURL cfg.scheme node cfg.port).isSome)).length := by
  induction hosts with
  | nil => rfl
  | cons a t ih =>
    cases h : mkNodeURL cfg.scheme a cfg.port <;>
      simp [buildURIs, h, List.filter_cons, ih]

theorem nextNode_rawQuery (s : ALNState) (h : NoQueryNodes s) :
    (nextNode s).1.rawQuery = "" := by
  have hsel : ∀ u ∈ selNodes s, u.rawQuery = "" := by
    intro u hu
    by_cases hl : s.liveNodes.isEmpty
    · exact h.2 u (by simpa [selNodes, hl] using hu)
    · exact h.1 u (by simpa [selNodes, hl] using hu)
  show ((selNodes s).getD _ default).rawQuery = ""
  by_cases hlt :
      (s.nextLiveNodeIdx + 1) % U64 % (selNodes s).length < (selNodes s).length
  · rw [List.getD_eq_getElem _ _ hlt]
    exact hsel _ (List.getElem_mem _)
  · rw [List.getD_eq_default _ _ (le_of_not_lt hlt)]
    rfl

/-- C2: construction rejects an empty seed list, and after any successful
construction every sequence of next, refresh, probe, start and stop operations
keeps the stored live-node list nonempty; hence the list indexed by `nextNode` has
positive length and its length is never zero when taken as a modulus. -/
theorem liveNodes_never_empty (seeds : List String) (cfg : ALNConfig) (s0 : ALNState)
    (h : NewAlternatorLiveNodes seeds cfg = some s0) (ops : List Op) :
    (run s0 ops).liveNodes ≠ [] ∧ 0 < (selNodes (run s0 ops)).length ∧
    NewAlternatorLiveNodes [] cfg = none := by
  have hinv := run_inv s0 ops (NewAlternatorLiveNodes_inv seeds cfg s0 h).1
  refine ⟨hinv.1, ?_, rfl⟩
  rw [selNodes_of_ne _ hinv.1]
  exact List.length_pos.mpr hinv.1

/-- C2 witness: the three-seed directory keeps a nonempty live list across a next
call, a failed refresh, a successful refresh and a stop. -/
theorem liveNodes_never_empty_witness :
    (run s0Ex [Op.next, Op.refresh FetchResult.netError,
        Op.refresh (FetchResult.response 200 (some ["d"])), Op.stop]).liveNodes ≠ [] ∧
    0 < (selNodes (run s0Ex [Op.next, Op.refresh FetchResult.netError,
        Op.refresh (FetchResult.response 200 (some ["d"])), Op.stop])).length ∧
    NewAlternatorLiveNodes [] NewALNConfig = none :=
  liveNodes_never_empty ["a", "b", "c"] NewALNConfig s0Ex rfl
    [Op.next, Op.refresh FetchResult.netError,
      Op.refresh (FetchResult.response 200 (some ["d"])), Op.stop]

/-- C3: a refresh whose fetch fails (network error, non-200 status or malformed
JSON body) or returns an empty node list leaves the live NodeSet exactly as it was,
and a subsequent `nextNode` still returns an element of that unchanged NodeSet
(`nextNode` returns a plain URL with no error channel, so nothing from the cycle is
propagated to its callers). -/
theorem refresh_failure_keeps_nodeset (s : ALNState) (fr : FetchResult)
    (h : fr = FetchResult.netError ∨
      (∃ st b, fr = FetchResult.response st b ∧ st ≠ 200) ∨
      (∃ st, fr = FetchResult.response st none) ∨
      getNodes s.cfg fr = .ok []) :
    (updateLiveNodes s fr).liveNodes = s.liveNodes ∧
    (s.liveNodes ≠ [] → (nextNode (updateLiveNodes s fr)).1 ∈ s.liveNodes) := by
  have hfail : (∃ e, getNodes s.cfg fr = .error e) ∨ getNodes s.cfg fr = .ok [] := by
    rcases h with h | ⟨st, b, rfl, hst⟩ | ⟨st, rfl⟩ | h
    · subst h; exact Or.inl ⟨"network error", rfl⟩
    · exact Or.inl ⟨"non-200 response", by simp [getNodes, hst]⟩
    · by_cases hst : st = 200
      · subst hst; exact Or.inl ⟨"json unmarshal error", by simp [getNodes]⟩
      · exact Or.inl ⟨"non-200 response", by simp [getNodes, hst]⟩
    · exact Or.inr h
  have hlive : (updateLiveNodes s fr).liveNodes = s.liveNodes := by
    rw [updateLiveNodes_eq]
    rcases hfail with ⟨e, he⟩ | he <;> rw [he]
    · exact nextNode_liveNodes s
    · simp [nextNode_liveNodes]
  refine ⟨hlive, fun hne => ?_⟩
  have hmem := nextNode_mem (updateLiveNodes s fr) (by rw [hlive]; exact hne)
  rwa [hlive] at hmem

/-- C3 witness: a network error during refresh leaves the three-node NodeSet
untouched and the next call still serves one of its addresses. -/
theorem refresh_failure_keeps_nodeset_witness :
    (updateLiveNodes s0Ex FetchResult.netError).liveNodes = s0Ex.liveNodes ∧
    (nextNode (updateLiveNodes s0Ex FetchResult.netError)).1 ∈ s0Ex.liveNodes := by
  have h := refresh_failure_keeps_nodeset s0Ex FetchResult.netError (Or.inl rfl)
  exact ⟨h.1, h.2 (by decide)⟩

/-- C4 counterexample: the claim says a successful refresh resets the round-robin
cursor; it does not. After one next call on the fresh three-node directory
(cursor 1), a successful refresh installing hosts d, e replaces the NodeSet but
leaves the cursor at 2 (the refresh itself advanced it once more through its URL
construction), not 0. -/
theorem refresh_does_not_reset_cursor :
    NewAlternatorLiveNodes ["a", "b", "c"] NewALNConfig = some s0Ex ∧
    (updateLiveNodes (run s0Ex [Op.next])
        (FetchResult.response 200 (some ["d", "e"]))).liveNodes
      = [nodeEx "d", nodeEx "e"] ∧
    (updateLiveNodes (run s0Ex [Op.next])
        (FetchResult.response 200 (some ["d", "e"]))).nextLiveNodeIdx = 2 := by
  refine ⟨rfl, rfl, rfl⟩

/-- C4 (amended): a refresh whose fetch succeeds with a nonempty list replaces the
NodeSet wholesale with that list; the cursor is advanced once by the refresh's own
URL construction and is not reset, and the next selection indexes modulo the length
of the list current at that moment, hence returns an element of the new NodeSet and
is never out of range after shrinkage. -/
theorem refresh_success_replaces_nodeset (s : ALNState) (fr : FetchResult)
    (l : List URLRec) (hok : getNodes s.cfg fr = .ok l) (hne : l ≠ []) :
    (updateLiveNodes s fr).liveNodes = l ∧
    (updateLiveNodes s fr).nextLiveNodeIdx = (s.nextLiveNodeIdx + 1) % U64 ∧
    (nextNode (updateLiveNodes s fr)).1 ∈ l := by
  have hlen : 0 < l.length := List.length_pos.mpr hne
  have heq : updateLiveNodes s fr = { (nextNode s).2 with liveNodes := l } := by
    rw [updateLiveNodes_eq, hok]
    simp [hlen]
  rw [heq]
  refine ⟨rfl, rfl, ?_⟩
  exact nextNode_mem _ hne

/-- C4 witness: a successful refresh of the three-node directory with hosts d, e
installs exactly those two addresses and keeps selection inside them. -/
theorem refresh_success_replaces_nodeset_witness :
    (updateLiveNodes s0Ex (FetchResult.response 200 (some ["d", "e"]))).liveNodes
      = [nodeEx "d", nodeEx "e"] ∧
    (updateLiveNodes s0Ex (FetchResult.response 200 (some ["d", "e"]))).nextLiveNodeIdx
      = (s0Ex.nextLiveNodeIdx + 1) % U64 ∧
    (nextNode (updateLiveNodes s0Ex
        (FetchResult.response 200 (some ["d", "e"])))).1 ∈ [nodeEx "d", nodeEx "e"] :=
  refresh_success_replaces_nodeset s0Ex (FetchResult.response 200 (some ["d", "e"]))
    [nodeEx "d", nodeEx "e"] rfl (by decide)

/-- C5: discovery parsing maps the hostname array element-wise in order, skipping
exactly the entries whose URL construction fails: the parsing loop equals
`filterMap`, its output length is the number of valid entries, the response
a, b, c with scheme http and port 8000 yields exactly the three addresses in order,
and one malformed hostname among valid ones yields exactly the valid ones (not
zero, not an error). -/
theorem getNodes_order_preserving_skip_invalid :
    (∀ (cfg : ALNConfig) (hosts : List String),
      getNodes cfg (FetchResult.response 200 (some hosts)) =
        .ok (hosts.filterMap (fun node => mkNodeURL cfg.scheme node cfg.port))) ∧
    (∀ (cfg : ALNConfig) (hosts : List String),
      (buildURIs cfg hosts).length =
        (hosts.filter (fun node => (mkNodeURL cfg.scheme node cfg.port).isSome)).length) ∧
    getNodes { scheme := "http", port := 8000, rack := "", datacenter := "" }
        (FetchResult.response 200 (some ["a", "b", "c"])) =
      .ok [{ scheme := "http", host := "a", port := 8000, path := "", rawQuery := "" },
           { scheme := "http", host := "b", port := 8000, path := "", rawQuery := "" },
           { scheme := "http", host := "c", port := 8000, path := "", rawQuery := "" }] ∧
    getNodes { scheme := "http", port := 8000, rack := "", datacenter := "" }
        (FetchResult.response 200 (some ["a", "b b", "c"])) =
      .ok [{ scheme := "http", host := "a", port := 8000, path := "", rawQuery := "" },
           { scheme := "http", host := "c", port := 8000, path := "", rawQuery := "" }] := by
  refine ⟨?_, buildURIs_length, rfl, rfl⟩
  intro cfg hosts
  simp [getNodes, buildURIs_eq_filterMap]

/-- C6: the discovery query string carries the rack and datacenter exactly as
stored in the config (path always /localnodes), but the public `WithRack` option of
the alternator_live_nodes package discards its argument: a rack supplied through it
never reaches the config, so the query string stays empty — contradicting the
option's evident purpose (its sibling `WithDatacenter` and the common package's
`WithALNRack` both store their argument). -/
theorem withRack_discards_rack :
    localNodesQuery (WithALNRack "r1" NewALNConfig) = "rack=r1" ∧
    localNodesQuery (WithALNDatacenter "dc1" NewALNConfig) = "dc=dc1" ∧
    localNodesQuery (WithALNDatacenter "dc1" (WithALNRack "r1" NewALNConfig))
      = "rack=r1&dc=dc1" ∧
    localNodesQuery NewALNConfig = "" ∧
    (nextAsLocalNodesURL s0Ex).1.path = "/localnodes" ∧
    (WithDatacenter "dc1" NewConfig).datacenter = "dc1" ∧
    (WithRack "r1" NewConfig).rack = "" ∧
    localNodesQuery (WithRack "r1" NewConfig) = "" := by
  refine ⟨by decide, by decide, by decide, by decide, by decide, by decide, by decide,
    by decide⟩

/-- C7: checkFilterSupported compares the sizes of its two fetch results: when the
without-filter fetch yields a nonempty list the result is false exactly when the
two sizes are equal and true exactly when they differ, and an empty without-filter
list is the probe error. -/
theorem checkFilterSupported_size_comparison (s : ALNState) (frFake frBase : FetchResult)
    (lF lB : List URLRec)
    (hF : getNodes s.cfg frFake = .ok lF) (hB : getNodes s.cfg frBase = .ok lB) :
    (lB = [] → (CheckIfRackDatacenterFeatureIsSupported s frFake frBase).1 =
      .error "host returned empty list") ∧
    (lB ≠ [] → (CheckIfRackDatacenterFeatureIsSupported s frFake frBase).1 =
      .ok (lF.length != lB.length)) ∧
    (lB ≠ [] → ((CheckIfRackDatacenterFeatureIsSupported s frFake frBase).1 = .ok false ↔
      lF.length = lB.length)) := by
  have heq := probeSupported_eq s frFake frBase
  rw [hF, hB] at heq
  have hres : ∀ hb : lB ≠ [],
      (CheckIfRackDatacenterFeatureIsSupported s frFake frBase).1 =
        .ok (lF.length != lB.length) := by
    intro hb
    rw [heq]
    simp [List.length_eq_zero, hb]
  refine ⟨fun hb => ?_, hres, fun hb => ?_⟩
  · subst hb
    rw [heq]
    simp
  · rw [hres hb]
    constructor
    · intro hok
      have : (lF.length != lB.length) = false := by
        have := Except.ok.inj hok
        exact this
      simpa using this
    · intro hlen
      simp [hlen]

/-- C7 witness: with rack r1 and datacenter dc1 configured, a server returning the
same three nodes with and without the fake rack parameter makes the probe answer
false (filtering unsupported). -/
theorem checkFilterSupported_size_comparison_witness :
    (CheckIfRackDatacenterFeatureIsSupported sProbeEx fr3 fr3).1 = .ok false := by
  have h := checkFilterSupported_size_comparison sProbeEx fr3 fr3
    (buildURIs sProbeEx.cfg ["a", "b", "c"]) (buildURIs sProbeEx.cfg ["a", "b", "c"])
    rfl rfl
  have h2 := h.2.1 (by decide)
  rw [h2]
  rfl

/-- C8 counterexample: the claim says the first probe fetch carries the configured
filter with a nonsense rack appended and the second carries the configured filter
unchanged. With rack r1 and datacenter dc1 configured, the first fetch's query is
exactly rack=fakeRack and the second's is empty: both ignore the configured
filter rack=r1&dc=dc1. -/
theorem probe_queries_ignore_filter :
    localNodesQuery sProbeEx.cfg = "rack=r1&dc=dc1" ∧
    (probeURIs sProbeEx).1.2.rawQuery = "rack=fakeRack" ∧
    (probeURIs sProbeEx).1.1.rawQuery = "" ∧
    (probeURIs sProbeEx).1.2.rawQuery ≠ "rack=r1&dc=dc1&rack=fakeRack" ∧
    (probeURIs sProbeEx).1.1.rawQuery ≠ localNodesQuery sProbeEx.cfg := by
  refine ⟨by decide, by decide, by decide, by decide, by decide⟩

/-- C8 (amended): for every directory state whose stored node URLs carry no query
string, the first probe fetch (the fake-rack one) carries exactly the query
rack=fakeRack and the second (the without-filter one) carries an empty query,
whatever rack or datacenter filter is configured. -/
theorem probe_queries_exact (s : ALNState) (h : NoQueryNodes s) :
    (probeURIs s).1.2.rawQuery = "rack=fakeRack" ∧ (probeURIs s).1.1.rawQuery = "" := by
  constructor
  · rfl
  · show ({ (nextNode s).1 with path := "/localnodes" }).rawQuery = ""
    exact nextNode_rawQuery s h

/-- C8 witness: the amended statement evaluated on the three-node directory with
rack r1 and datacenter dc1 configured. -/
theorem probe_queries_exact_witness :
    (probeURIs sProbeEx).1.2.rawQuery = "rack=fakeRack" ∧
    (probeURIs sProbeEx).1.1.rawQuery = "" :=
  probe_queries_exact sProbeEx (by constructor <;> decide)

/-- C9: checkFilterConfigured succeeds without fetching (result ok and state
unchanged, whatever the fetch outcome would be) when no rack or datacenter is
configured; otherwise the discovery URL carries the configured filter and the call
fails with the validation error exactly when the fetched list is empty, and with a
wrapped fetch error when the fetch itself fails. -/
theorem checkFilterConfigured_spec (s : ALNState) (fr : FetchResult) :
    (s.cfg.rack = "" ∧ s.cfg.datacenter = "" →
      CheckIfRackAndDatacenterSetCorrectly s fr = (.ok (), s)) ∧
    (NoQueryNodes s → (nextAsLocalNodesURL s).1.rawQuery = localNodesQuery s.cfg) ∧
    (¬(s.cfg.rack = "" ∧ s.cfg.datacenter = "") →
      (∀ e, getNodes s.cfg fr = .error e →
        (CheckIfRackAndDatacenterSetCorrectly s fr).1 =
          .error ("failed to read list of nodes: " ++ e)) ∧
      (∀ l, getNodes s.cfg fr = .ok l →
        ((CheckIfRackAndDatacenterSetCorrectly s fr).1 =
            .error "node returned empty list, datacenter or rack might be incorrect" ↔
          l = []) ∧
        (l ≠ [] → (CheckIfRackAndDatacenterSetCorrectly s fr).1 = .ok ()))) := by
  refine ⟨fun hf => ?_, fun hq => ?_, fun hf => ⟨fun e he => ?_, fun l hl => ?_⟩⟩
  · rw [checkConfigured_eq, if_pos hf]
  · by_cases hqe : localNodesQuery s.cfg = ""
    · rw [hqe]
      show (nextAsURLWithPath s "/localnodes" (localNodesQuery s.cfg)).1.rawQuery = ""
      rw [hqe]
      show ({ (nextNode s).1 with path := "/localnodes" }).rawQuery = ""
      exact nextNode_rawQuery s hq
    · show (nextAsURLWithPath s "/localnodes" (localNodesQuery s.cfg)).1.rawQuery = _
      simp [nextAsURLWithPath, hqe]
  · rw [checkConfigured_eq, if_neg hf, he]
  · rw [checkConfigured_eq, if_neg hf, hl]
    constructor
    · by_cases hle : l.length = 0
      · simp [hle, List.length_eq_zero.mp hle]
      · have : l ≠ [] := fun hn => hle (by simp [hn])
        simp [hle, this]
    · intro hne
      have hle : ¬l.length = 0 := by simpa [List.length_eq_zero] using hne
      simp [hle]

/-- C9 witness: datacenter wrongDC against a server answering the empty array
yields the validation error. -/
theorem checkFilterConfigured_spec_witness :
    (CheckIfRackAndDatacenterSetCorrectly sWrongDC (FetchResult.response 200 (some []))).1 =
      .error "node returned empty list, datacenter or rack might be incorrect" := by
  have h := checkFilterConfigured_spec sWrongDC (FetchResult.response 200 (some []))
  exact ((h.2.2 (by decide)).2 [] rfl).1.mpr rfl

/-- C10: on a fresh directory with K seeds the cursor starts at 0 and is
pre-incremented before indexing, so the first call returns the address at index
1 mod K (the second seed for K at least 2, the single seed for K = 1) and the K-th
call returns the address at index 0, last in the first round. -/
theorem first_next_skips_first_seed (seeds : List String) (cfg : ALNConfig)
    (s0 : ALNState) (h : NewAlternatorLiveNodes seeds cfg = some s0) :
    s0.liveNodes.length = seeds.length ∧
    (nextNode s0).1 = s0.liveNodes.getD (1 % seeds.length) default ∧
    (seeds.length < U64 →
      ((nextNodes s0 seeds.length).1).getD (seeds.length - 1) default =
        s0.liveNodes.getD 0 default) := by
  obtain ⟨⟨hlive, _⟩, hidx, hlen, _, _⟩ := NewAlternatorLiveNodes_inv seeds cfg s0 h
  have hKpos : 0 < seeds.length := by
    rw [← hlen]; exact List.length_pos.mpr hlive
  refine ⟨hlen, ?_, fun hK => ?_⟩
  · rw [nextNode_fst s0 hlive, hidx, hlen]
    have h1 : (0 + 1) % U64 = 1 := by norm_num [U64]
    rw [h1]
  · have hc : s0.nextLiveNodeIdx + seeds.length < U64 := by rw [hidx]; omega
    have htr := nextNodes_fst s0 seeds.length hlive hc
    rw [htr, hidx]
    have hbound : seeds.length - 1 <
        ((List.range seeds.length).map
          (fun i => s0.liveNodes.getD ((0 + i + 1) % s0.liveNodes.length) default)).length := by
      simpa using Nat.sub_lt hKpos one_pos
    rw [List.getD_eq_getElem _ _ hbound]
    rw [List.getElem_map, List.getElem_range]
    have harith : 0 + (seeds.length - 1) + 1 = seeds.length := by omega
    rw [harith, hlen, Nat.mod_self]

/-- C10 witness: on the fresh three-seed directory the first call returns the
address at index 1 and the third call returns the address at index 0. -/
theorem first_next_skips_first_seed_witness :
    s0Ex.liveNodes.length = 3 ∧
    (nextNode s0Ex).1 = s0Ex.liveNodes.getD (1 % 3) default ∧
    ((nextNodes s0Ex 3).1).getD 2 default = s0Ex.liveNodes.getD 0 default := by
  have h := first_next_skips_first_seed ["a", "b", "c"] NewALNConfig s0Ex rfl
  exact ⟨h.1, h.2.1, h.2.2 (by decide)⟩

/-- C1 (amended): on a directory with a nonempty live NodeSet of size K, a sequence
of N sequential `nextNode` calls returns the addresses at indices
c, c+1, ..., c+N-1 modulo K for some starting index c, provided the 64-bit cursor
does not wrap during the N calls (fewer than `2 ^ 64` increments in total): each
call advances the cursor exactly once and returns the element at the new cursor
position. At the uint64 wrap an index can repeat when K does not divide `2 ^ 64`
(see the counterexample). -/
theorem next_sequential_round_robin_no_wrap (s : ALNState) (n : Nat)
    (hL : s.liveNodes ≠ []) (hc : s.nextLiveNodeIdx + n < U64) :
    ∃ c, (nextNodes s n).1 =
      (List.range n).map
        (fun i => s.liveNodes.getD ((c + i) % s.liveNodes.length) default) := by
  refine ⟨s.nextLiveNodeIdx + 1, ?_⟩
  rw [nextNodes_fst s n hL hc]
  apply List.map_congr_left
  intro i hi
  have harith : s.nextLiveNodeIdx + i + 1 = s.nextLiveNodeIdx + 1 + i := by omega
  rw [harith]

/-- C1 witness: five sequential calls on the fresh three-node directory follow an
arithmetic progression of indices modulo 3. -/
theorem next_sequential_round_robin_no_wrap_witness :
    s0Ex.liveNodes ≠ [] ∧ s0Ex.nextLiveNodeIdx + 5 < U64 ∧
    ∃ c, (nextNodes s0Ex 5).1 =
      (List.range 5).map
        (fun i => s0Ex.liveNodes.getD ((c + i) % s0Ex.liveNodes.length) default) :=
  ⟨by decide, by decide,
    next_sequential_round_robin_no_wrap s0Ex 5 (by decide) (by decide)⟩

/-- C1 counterexample: the claim as stated fails at the uint64 cursor wrap. From
the freshly constructed three-node directory, 2 ^ 64 - 2 calls park the cursor at
2 ^ 64 - 2; the next three sequential calls then return the addresses at indices
0, 0, 1 (since 2 ^ 64 - 1 and the wrapped 0 are both 0 modulo 3) — index 0 repeats,
which matches no progression c, c+1, c+2 modulo 3. -/
theorem next_round_robin_wrap_counterexample :
    NewAlternatorLiveNodes ["a", "b", "c"] NewALNConfig = some s0Ex ∧
    run s0Ex (List.replicate (U64 - 2) Op.next) = sWrapEx ∧
    ¬ ∃ c, (nextNodes sWrapEx 3).1 =
        (List.range 3).map
          (fun i => sWrapEx.liveNodes.getD ((c + i) % sWrapEx.liveNodes.length) default) := by
  refine ⟨rfl, ?_, ?_⟩
  · rw [run_replicate_next]
    apply ALNState_eq_of_fields
    · exact (nextNodes_snd s0Ex (U64 - 2)).1
    · exact (nextNodes_snd s0Ex (U64 - 2)).2.1
    · rw [nextNodes_snd_idx s0Ex (U64 - 2) (by decide)]
      decide
    · exact (nextNodes_snd s0Ex (U64 - 2)).2.2
  · rintro ⟨c, hc⟩
    have htrace : (nextNodes sWrapEx 3).1 = [nodeEx "a", nodeEx "a", nodeEx "b"] := by
      rfl
    have hlen : sWrapEx.liveNodes.length = 3 := by decide
    have hrg : List.range 3 = [0, 1, 2] := by decide
    rw [htrace, hlen, hrg] at hc
    simp only [List.map_cons, List.map_nil] at hc
    have e0 : (c + 0) % 3 = c % 3 := by omega
    have e1 : (c + 1) % 3 = (c % 3 + 1) % 3 := by omega
    have e2 : (c + 2) % 3 = (c % 3 + 2) % 3 := by omega
    rw [e0, e1, e2] at hc
    have h3 : c % 3 = 0 ∨ c % 3 = 1 ∨ c % 3 = 2 := by omega
    rcases h3 with h0 | h0 | h0 <;> rw [h0] at hc <;> revert hc <;> decide

end AlternatorLB
